import Mathlib

/-!
Verification development for the jellyfish ingestion job.

The core model embeds `lib/children/fetch.js`: the child process that reads
one Job Description from stdin, fetches the configured device-data sources,
deletes previously persisted data for the group, parses and merges the
fetched payloads into tagged records, and bulk-stores them.  External
collaborators (source fetchers, the blob store, the stream DAO, the mongo
client, the filesystem) are abstracted as an oracle `Env` giving the outcome
of each call; the run itself is a pure function producing an event trace,
the resulting persisted-record list and a terminal outcome.  Asynchronous
steps (`async.parallel`, the rx merge) are determinized in task-array order,
which is faithful for the order-insensitive and completed-phase properties
proved here.

Separate small embeddings cover `client/services/synctask.js` and the
carelink fetcher module.
-/

/-- A Normalized Event Record: opaque payload plus the `_groupId` tag the
merger sets.  Records coming out of a Parser Adapter may carry any prior
tag (usually none). -/
structure EventRecord where
  payload : Nat
  _groupId : Option String
deriving Repr, DecidableEq

/-- A SourceConfig: the opaque credential bag of one source.  The job core
inspects `type` (adapter lookup in `fetch`) and, for dexcom, `file` (the
local staging file removed after reading).  `username` is only logged. -/
structure SourceConfig where
  type : String
  username : String
  file : String
deriving Repr, DecidableEq

/-- A Job Description as parsed from stdin: `groupId` plus the four optional
source configurations. -/
structure JobDesc where
  groupId : Option String
  carelink : Option SourceConfig
  diasend : Option SourceConfig
  tconnect : Option SourceConfig
  dexcom : Option SourceConfig
deriving Repr, DecidableEq

/-- A Location Descriptor as built by `download`: the source key, the blob
location handle returned by `storage.save`, and the config the descriptor
carries (the tconnect branch omits it in the source). -/
structure LocDesc where
  source : String
  location : Option String
  config : Option SourceConfig
deriving Repr, DecidableEq

/-- Observable external calls of one run, in order. -/
inductive Event where
  | fetchCall (ty filename : String)
  | saveCall (groupId filename : String)
  | unlinkCall (path : String)
  | deleteCall (groupId : String)
  | parseCall (src : String)
  | storeCall (count : Nat)
  | dbClose
  | logWarn (msg : String)
  | artifact (reason : String)
deriving Repr, DecidableEq

/-- Terminal outcome of the process: `process.exit(code)`, or an uncaught
exception crashing the process (which bypasses `fail` entirely). -/
inductive Outcome where
  | exited (code : Nat)
  | crashed (msg : String)
deriving Repr, DecidableEq

/-- How a stage ends the whole run early: through the `fail` routine, or by
an uncaught throw. -/
inductive Terminal where
  | failExit (reason : String)
  | crash (msg : String)
deriving Repr, DecidableEq

/-- Oracle for every external collaborator of the job. -/
structure Env where
  /-- adapter keys registered in the `in-d-gestion` lookup table -/
  registered : List String
  /-- whether `antacid.fetch` succeeds for a given adapter type -/
  fetchOk : String → Bool
  /-- `storage.save groupId filename`: location handle, or an error message -/
  saveResult : String → String → Except String String
  /-- records emitted by `antacid.parse` for a source key, location, config -/
  parseRecs : String → Option String → Option SourceConfig → List EventRecord
  /-- whether that parse sequence completes without error -/
  parseOk : String → Option String → Option SourceConfig → Bool
  mongoStartOk : Bool
  deleteOk : Bool
  storeOk : Bool
  unlinkOk : Bool

/-- The persisted record store: the list of records across all groups. -/
abbrev DB := List EventRecord

/-- `streamDAO.deleteData groupId`: drop every record tagged with the group. -/
def deleteData (gid : String) (db : DB) : DB :=
  db.filter (fun r => !(r._groupId == some gid))

/-- The records persisted for one group (statement-side helper). -/
def groupData (gid : String) (db : DB) : DB :=
  db.filter (fun r => r._groupId == some gid)

/-- Result of one `fetch(groupId, filename, config, cb)` call. -/
inductive FetchStep where
  | noConfig
  | located (loc : String)
  | saveErr (msg : String)
  | fetchFailed
  | unknownService (ty : String)
deriving Repr, DecidableEq

/-- The `fetch` helper of fetch.js.  A null config is a no-op callback; an
unregistered `config.type` throws (uncaught); a fetcher error calls `fail`
directly; otherwise the stream is saved to blob storage, which yields a
location or an error passed to the callback. -/
def fetchOne (env : Env) (gid filename : String) (cfg : Option SourceConfig) :
    List Event × FetchStep :=
  match cfg with
  | none => ([], .noConfig)
  | some c =>
    if c.type ∈ env.registered then
      if env.fetchOk c.type then
        match env.saveResult gid filename with
        | .ok loc => ([.fetchCall c.type filename, .saveCall gid filename], .located loc)
        | .error m => ([.fetchCall c.type filename, .saveCall gid filename], .saveErr m)
      else ([.fetchCall c.type filename], .fetchFailed)
    else ([], .unknownService c.type)

/-- Result of one `async.parallel` task in `download`. -/
inductive BranchRes where
  | ok (d : Option LocDesc)
  | err (msg : String)
  | terminal (t : Terminal)
deriving Repr, DecidableEq

/-- Reason string used by `fail` when a fetcher errors. -/
def failFetchReason : String := "Couldnt fetch!?"

/-- Message of the uncaught exception for an unregistered service type. -/
def unknownServiceMsg (ty : String) : String := "Unknown service " ++ ty

/-- The common shape of the carelink / diasend / tconnect download branches:
fetch, then wrap a non-null location into a descriptor.  `keepConfig` is
false for tconnect, whose descriptor omits the config field in the source. -/
def stdBranch (env : Env) (gid srcName filename : String)
    (cfgO : Option SourceConfig) (keepConfig : Bool) : List Event × BranchRes :=
  match fetchOne env gid filename cfgO with
  | (tr, .noConfig) => (tr, .ok none)
  | (tr, .located loc) =>
      (tr, .ok (some { source := srcName, location := some loc,
                       config := if keepConfig then cfgO else none }))
  | (tr, .saveErr m) => (tr, .err m)
  | (tr, .fetchFailed) => (tr, .terminal (.failExit failFetchReason))
  | (tr, .unknownService ty) => (tr, .terminal (.crash (unknownServiceMsg ty)))

/-- The dexcom download branch: after the fetch callback fires, the staging
file is unlinked (an unlink failure only logged) and the descriptor is
passed on.  When the fetcher itself fails, `fail` exits the process first,
so no unlink happens. -/
def dexcomBranch (env : Env) (gid : String) (cfgO : Option SourceConfig) :
    List Event × BranchRes :=
  match cfgO with
  | none => ([], .ok none)
  | some cfg =>
    let unlinkTr : List Event :=
      [.unlinkCall cfg.file] ++ (if env.unlinkOk then [] else [.logWarn "error deleting file"])
    match fetchOne env gid "dexcom.csv" (some cfg) with
    | (tr, .noConfig) => (tr, .ok none)
    | (tr, .located loc) =>
        (tr ++ unlinkTr,
         .ok (some { source := "dexcom", location := some loc, config := some cfg }))
    | (tr, .saveErr m) => (tr ++ unlinkTr, .err m)
    | (tr, .fetchFailed) => (tr, .terminal (.failExit failFetchReason))
    | (tr, .unknownService ty) => (tr, .terminal (.crash (unknownServiceMsg ty)))

/-- The four parallel tasks of `download`, in array order. -/
def branches (env : Env) (desc : JobDesc) (gid : String) :
    List (List Event × BranchRes) :=
  [ stdBranch env gid "carelink" "carelink.csv" desc.carelink true,
    stdBranch env gid "diasend" "diasend.xls" desc.diasend true,
    stdBranch env gid "tconnect" "tconnect.xml" desc.tconnect false,
    dexcomBranch env gid desc.dexcom ]

/-- Collected result of the parallel tasks. -/
inductive ParRes where
  | ok (ds : List (Option LocDesc))
  | err (msg : String)
  | terminal (t : Terminal)
deriving Repr, DecidableEq

/-- Sequential determinization of `async.parallel`: run the tasks in order,
stop at the first error or terminal event, otherwise collect the optional
descriptors in task order. -/
def collectBranches : List (List Event × BranchRes) → List Event × ParRes
  | [] => ([], .ok [])
  | (tr, r) :: rest =>
    match r with
    | .ok d =>
      match collectBranches rest with
      | (tr2, .ok ds) => (tr ++ tr2, .ok (d :: ds))
      | (tr2, .err m) => (tr ++ tr2, .err m)
      | (tr2, .terminal t) => (tr ++ tr2, .terminal t)
    | .err m => (tr, .err m)
    | .terminal t => (tr, .terminal t)

/-- Result of `download`: the non-null Location Descriptors, or an early
termination of the run. -/
inductive DownloadRes where
  | ok (locs : List LocDesc)
  | terminal (t : Terminal)
deriving Repr, DecidableEq

/-- `download`: run the four branches; on a task error call `fail` with the
error message; on success filter out the null descriptors. -/
def download (env : Env) (desc : JobDesc) (gid : String) :
    List Event × DownloadRes :=
  match collectBranches (branches env desc gid) with
  | (tr, .ok ds) => (tr, .ok ds.reduceOption)
  | (tr, .err m) => (tr, .terminal (.failExit m))
  | (tr, .terminal t) => (tr, .terminal t)

/-- Tag one record with the group identifier, as the rx `map` stage does. -/
def tagRecord (gid : String) (r : EventRecord) : EventRecord :=
  { r with _groupId := some gid }

/-- The rx merge stage: for each descriptor in order, look up the Parser
Adapter by the descriptor's source key (an unknown key throws inside
`flatMap`, which rx routes to the error handler, i.e. `fail` with reason
"Problem parsing data"), invoke it, tag its records, and accumulate; a parse
error likewise ends the run through the same `fail` reason. -/
def parsePhase (env : Env) (gid : String) :
    List LocDesc → List Event × List EventRecord × Option Terminal
  | [] => ([], [], none)
  | l :: rest =>
    if l.source ∈ env.registered then
      let recs := (env.parseRecs l.source l.location l.config).map (tagRecord gid)
      if env.parseOk l.source l.location l.config then
        match parsePhase env gid rest with
        | (tr, rs, t) => (Event.parseCall l.source :: tr, recs ++ rs, t)
      else ([Event.parseCall l.source], recs, some (.failExit "Problem parsing data"))
    else ([], [], some (.failExit "Problem parsing data"))

/-- The events of the `fail` routine: close the mongo client, log the
reason, and write the error artifact when a task storage directory was
supplied at launch; the process then exits 255. -/
def failEvents (dir : Option String) (reason : String) : List Event :=
  [Event.dbClose, Event.logWarn reason] ++
    (match dir with
     | some _ => [Event.artifact reason]
     | none => [])

/-- Everything one run leaves behind: the event trace, the terminal outcome,
the persisted store afterwards, and the argument of the `storeData` call
when one was made. -/
structure RunResult where
  trace : List Event
  outcome : Outcome
  db : DB
  stored : Option (List EventRecord)
deriving Repr

/-- Build the run result of a path that ends in the `fail` routine. -/
def finishFail (dir : Option String) (reason : String) (tr : List Event)
    (db : DB) (stored : Option (List EventRecord)) : RunResult :=
  { trace := tr ++ failEvents dir reason, outcome := .exited 255,
    db := db, stored := stored }

/-- After the merged collection is materialized: fail with "No results" when
it is empty, otherwise make the single bulk `storeData` call; a store error
also ends in `fail`. -/
def afterParse (env : Env) (dir : Option String) (db1 : DB)
    (tr1 : List Event) (recs : List EventRecord) : RunResult :=
  if recs.isEmpty then
    finishFail dir "No results" tr1 db1 none
  else
    if env.storeOk then
      { trace := tr1 ++ [Event.storeCall recs.length, Event.dbClose],
        outcome := .exited 0, db := db1 ++ recs, stored := some recs }
    else
      finishFail dir "Problem with DB, Oh Noes!"
        (tr1 ++ [Event.storeCall recs.length]) db1 (some recs)

/-- Run the merge stage over the descriptors and continue. -/
def afterDelete (env : Env) (dir : Option String) (gid : String) (db1 : DB)
    (tr1 : List Event) (locs : List LocDesc) : RunResult :=
  match parsePhase env gid locs with
  | (ptr, recs, none) => afterParse env dir db1 (tr1 ++ ptr) recs
  | (ptr, _, some (.failExit r)) => finishFail dir r (tr1 ++ ptr) db1 none
  | (ptr, _, some (.crash m)) =>
      { trace := tr1 ++ ptr, outcome := .crashed m, db := db1, stored := none }

/-- `removeData` and what follows: delete all previously persisted records
for the group, then parse; a delete error ends in `fail` with the generic
waterfall reason. -/
def afterDownload (env : Env) (dir : Option String) (gid : String) (db : DB)
    (dtr : List Event) (locs : List LocDesc) : RunResult :=
  if env.deleteOk then
    afterDelete env dir gid (deleteData gid db)
      (dtr ++ [Event.deleteCall gid]) locs
  else
    finishFail dir "Just another error" (dtr ++ [Event.deleteCall gid]) db none

/-- The `go` waterfall: start mongo, download, delete, then the merge /
store continuation. -/
def go (env : Env) (dir : Option String) (desc : JobDesc) (gid : String)
    (db : DB) : RunResult :=
  if env.mongoStartOk then
    match download env desc gid with
    | (dtr, .ok locs) => afterDownload env dir gid db dtr locs
    | (dtr, .terminal (.failExit r)) => finishFail dir r dtr db none
    | (dtr, .terminal (.crash m)) =>
        { trace := dtr, outcome := .crashed m, db := db, stored := none }
  else
    finishFail dir "Just another error" [] db none

/-- One invocation of the child process on a parsed Job Description: the
stdin handler validates `groupId` with `pre.hasProperty`, whose throw is an
uncaught exception raised before `go` is scheduled. -/
def runJob (env : Env) (dir : Option String) (desc : JobDesc) (db : DB) :
    RunResult :=
  match desc.groupId with
  | none =>
      { trace := [], outcome := .crashed "groupId is a required property",
        db := db, stored := none }
  | some gid => go env dir desc gid db

/-- Events that can occur before the `removeData` delete: fetcher calls,
blob saves, the dexcom unlink and log lines. -/
def isPreDeleteEvent : Event → Bool
  | .fetchCall _ _ => true
  | .saveCall _ _ => true
  | .unlinkCall _ => true
  | .logWarn _ => true
  | _ => false

/-- Events that can occur after the `removeData` delete: parses, the store,
the close and the failure-reporting events. -/
def isPostDeleteEvent : Event → Bool
  | .parseCall _ => true
  | .storeCall _ => true
  | .dbClose => true
  | .logWarn _ => true
  | .artifact _ => true
  | _ => false

/-- The union of this run's tagged records: per descriptor, the adapter's
parse output tagged with the group (statement-side helper). -/
def taggedUnion (env : Env) (gid : String) (locs : List LocDesc) :
    List EventRecord :=
  (locs.map (fun l => (env.parseRecs l.source l.location l.config).map (tagRecord gid))).flatten

/-- A sync task document, as the client service sees it: a possibly missing
status string and a possibly missing id. -/
structure SyncTask where
  status : Option String
  _id : Option String
deriving Repr, DecidableEq

namespace syncTaskService

/-- `isSuccessful` from client/services/synctask.js: false for a null task,
else compares `status` with the string literal for success. -/
def isSuccessful : Option SyncTask → Bool
  | none => false
  | some t => t.status == some "success"

/-- `isFailed` from client/services/synctask.js: false for a null task, else
compares `status` with the string literal for error. -/
def isFailed : Option SyncTask → Bool
  | none => false
  | some t => t.status == some "error"

/-- `getTaskId` from client/services/synctask.js: null for a null task, else
the task's id field. -/
def getTaskId : Option SyncTask → Option String
  | none => none
  | some t => t._id

end syncTaskService

/-- Options object handed to the carelink fetcher module. -/
structure CarelinkOpts where
  username : Option String
  password : Option String
  daysAgo : Option Nat
deriving Repr, DecidableEq

/-- The requests the carelink fetcher issues, in order; dates are modelled
as integer day numbers. -/
inductive CarelinkStep where
  | securityPost (user pass : String)
  | loginGet
  | csvPost (datePicker1 datePicker2 : Int)
deriving Repr, DecidableEq

/-- The carelink fetcher module: `pre.hasProperty` throws on a missing
username, password or daysAgo before any request is issued; otherwise the
three requests run in sequence, the CSV form spanning from today back to
`daysAgo || 14` days ago (the JS or-fallback makes a present-but-zero
`daysAgo` behave as 14).  Returns the issued requests and the thrown
message, if any. -/
def carelinkFetchSteps (today : Int) (opts : CarelinkOpts) :
    List CarelinkStep × Option String :=
  match opts.username with
  | none => ([], some "username is a required property")
  | some u =>
    match opts.password with
    | none => ([], some "password is a required property")
    | some p =>
      match opts.daysAgo with
      | none => ([], some "daysAgo is a required property")
      | some d =>
        ([.securityPost u p, .loginGet,
          .csvPost today (today - (if d = 0 then 14 else (d : Int)))], none)

/-! ### Store lemmas -/

theorem deleteData_no_group (gid : String) (db : DB) :
    groupData gid (deleteData gid db) = [] := by
  simp [groupData, deleteData, List.filter_filter]

theorem deleteData_idem (gid : String) (db : DB) :
    deleteData gid (deleteData gid db) = deleteData gid db := by
  simp [deleteData, List.filter_filter]

theorem deleteData_append (gid : String) (a b : DB) :
    deleteData gid (a ++ b) = deleteData gid a ++ deleteData gid b := by
  simp [deleteData, List.filter_append]

theorem groupData_append (gid : String) (a b : DB) :
    groupData gid (a ++ b) = groupData gid a ++ groupData gid b := by
  simp [groupData, List.filter_append]

theorem deleteData_append_tagged (gid : String) (db : DB)
    (recs : List EventRecord) (h : ∀ r ∈ recs, r._groupId = some gid) :
    deleteData gid (db ++ recs) = deleteData gid db := by
  have h2 : deleteData gid recs = [] := by
    simp only [deleteData, List.filter_eq_nil_iff]
    intro r hr
    simp [h r hr]
  rw [deleteData_append, h2, List.append_nil]

theorem groupData_restore (gid : String) (db : DB)
    (recs : List EventRecord) (h : ∀ r ∈ recs, r._groupId = some gid) :
    groupData gid (deleteData gid db ++ recs) = recs := by
  have h1 : groupData gid recs = recs := by
    simp only [groupData, List.filter_eq_self]
    intro r hr
    simp [h r hr]
  rw [groupData_append, deleteData_no_group, h1, List.nil_append]

/-! ### Trace lemmas -/

theorem mem_failEvents_post (dir : Option String) (reason : String) :
    ∀ e ∈ failEvents dir reason, isPostDeleteEvent e = true := by
  intro e he
  cases dir with
  | none =>
    simp [failEvents] at he
    rcases he with rfl | rfl <;> rfl
  | some d =>
    simp [failEvents] at he
    rcases he with rfl | rfl | rfl <;> rfl

theorem fetchOne_trace_pre (env : Env) (gid filename : String)
    (cfg : Option SourceConfig) :
    ∀ e ∈ (fetchOne env gid filename cfg).1, isPreDeleteEvent e = true := by
  intro e he
  cases cfg with
  | none => simp [fetchOne] at he
  | some c =>
    by_cases hr : c.type ∈ env.registered
    · cases hf : env.fetchOk c.type with
      | false =>
        simp [fetchOne, hr, hf] at he
        subst he; rfl
      | true =>
        cases hs : env.saveResult gid filename with
        | ok loc =>
          simp [fetchOne, hr, hf, hs] at he
          rcases he with rfl | rfl <;> rfl
        | error m =>
          simp [fetchOne, hr, hf, hs] at he
          rcases he with rfl | rfl <;> rfl
    · simp [fetchOne, hr] at he

theorem stdBranch_trace_eq (env : Env) (gid srcName filename : String)
    (cfgO : Option SourceConfig) (k : Bool) :
    (stdBranch env gid srcName filename cfgO k).1 =
      (fetchOne env gid filename cfgO).1 := by
  unfold stdBranch
  rcases h : fetchOne env gid filename cfgO with ⟨tr, r⟩
  cases r <;> simp

theorem stdBranch_trace_pre (env : Env) (gid srcName filename : String)
    (cfgO : Option SourceConfig) (k : Bool) :
    ∀ e ∈ (stdBranch env gid srcName filename cfgO k).1,
      isPreDeleteEvent e = true := by
  rw [stdBranch_trace_eq]
  exact fetchOne_trace_pre env gid filename cfgO

theorem dexcomBranch_trace_pre (env : Env) (gid : String)
    (cfgO : Option SourceConfig) :
    ∀ e ∈ (dexcomBranch env gid cfgO).1, isPreDeleteEvent e = true := by
  intro e he
  cases cfgO with
  | none => simp [dexcomBranch] at he
  | some cfg =>
    have hfo := fetchOne_trace_pre env gid "dexcom.csv" (some cfg)
    rcases h : fetchOne env gid "dexcom.csv" (some cfg) with ⟨tr, r⟩
    rw [h] at hfo
    cases hu : env.unlinkOk <;>
      cases r <;> simp [dexcomBranch, h, hu] at he <;>
      first
        | (exact hfo e he)
        | (rcases he with he | rfl
           · exact hfo e he
           · rfl)
        | (rcases he with he | rfl | rfl
           · exact hfo e he
           · rfl
           · rfl)

theorem collectBranches_trace_mem (bs : List (List Event × BranchRes)) :
    ∀ e ∈ (collectBranches bs).1, ∃ b ∈ bs, e ∈ b.1 := by
  induction bs with
  | nil => intro e he; simp [collectBranches] at he
  | cons b rest ih =>
    intro e he
    rcases b with ⟨tr, r⟩
    cases r with
    | ok d =>
      rcases h : collectBranches rest with ⟨tr2, pr⟩
      rw [collectBranches, h] at he
      cases pr <;> simp only at he <;>
        rcases List.mem_append.mp he with h1 | h1
      · exact ⟨(tr, .ok d), by simp, h1⟩
      · rcases ih e (by rw [h]; exact h1) with ⟨b2, hb2, he2⟩
        exact ⟨b2, by simp [hb2], he2⟩
      · exact ⟨(tr, .ok d), by simp, h1⟩
      · rcases ih e (by rw [h]; exact h1) with ⟨b2, hb2, he2⟩
        exact ⟨b2, by simp [hb2], he2⟩
      · exact ⟨(tr, .ok d), by simp, h1⟩
      · rcases ih e (by rw [h]; exact h1) with ⟨b2, hb2, he2⟩
        exact ⟨b2, by simp [hb2], he2⟩
    | err m =>
      rw [collectBranches] at he
      exact ⟨(tr, .err m), by simp, he⟩
    | terminal t =>
      rw [collectBranches] at he
      exact ⟨(tr, .terminal t), by simp, he⟩

theorem download_trace_eq (env : Env) (desc : JobDesc) (gid : String) :
    (download env desc gid).1 = (collectBranches (branches env desc gid)).1 := by
  unfold download
  rcases h : collectBranches (branches env desc gid) with ⟨tr, r⟩
  cases r <;> simp

theorem download_trace_pre (env : Env) (desc : JobDesc) (gid : String) :
    ∀ e ∈ (download env desc gid).1, isPreDeleteEvent e = true := by
  rw [download_trace_eq]
  intro e he
  rcases collectBranches_trace_mem _ e he with ⟨b, hb, heb⟩
  simp [branches] at hb
  rcases hb with rfl | rfl | rfl | rfl
  · exact stdBranch_trace_pre _ _ _ _ _ _ e heb
  · exact stdBranch_trace_pre _ _ _ _ _ _ e heb
  · exact stdBranch_trace_pre _ _ _ _ _ _ e heb
  · exact dexcomBranch_trace_pre _ _ _ e heb

/-! ### Merge-stage lemmas -/

theorem parsePhase_trace_mem (env : Env) (gid : String) (locs : List LocDesc) :
    ∀ e ∈ (parsePhase env gid locs).1, ∃ l ∈ locs, e = Event.parseCall l.source := by
  induction locs with
  | nil => intro e he; simp [parsePhase] at he
  | cons l rest ih =>
    intro e he
    by_cases hr : l.source ∈ env.registered
    · cases hp : env.parseOk l.source l.location l.config with
      | false =>
        simp [parsePhase, hr, hp] at he
        exact ⟨l, by simp, he⟩
      | true =>
        rcases h : parsePhase env gid rest with ⟨tr, rs, t⟩
        simp [parsePhase, hr, hp, h] at he
        rcases he with rfl | he
        · exact ⟨l, by simp, rfl⟩
        · rcases ih e (by rw [h]; exact he) with ⟨l2, hl2, rfl⟩
          exact ⟨l2, by simp [hl2], rfl⟩
    · simp [parsePhase, hr] at he

theorem parsePhase_records_tagged (env : Env) (gid : String) (locs : List LocDesc) :
    ∀ r ∈ (parsePhase env gid locs).2.1, r._groupId = some gid := by
  induction locs with
  | nil => intro r hr; simp [parsePhase] at hr
  | cons l rest ih =>
    intro r hr
    by_cases hreg : l.source ∈ env.registered
    · cases hp : env.parseOk l.source l.location l.config with
      | false =>
        simp [parsePhase, hreg, hp] at hr
        rcases hr with ⟨x, _, rfl⟩
        rfl
      | true =>
        rcases h : parsePhase env gid rest with ⟨tr, rs, t⟩
        simp [parsePhase, hreg, hp, h] at hr
        rcases hr with ⟨x, _, rfl⟩ | hr
        · rfl
        · exact ih r (by rw [h]; exact hr)
    · simp [parsePhase, hreg] at hr

theorem parsePhase_all_ok (env : Env) (gid : String) (locs : List LocDesc)
    (h : ∀ l ∈ locs, l.source ∈ env.registered ∧
        env.parseOk l.source l.location l.config = true) :
    parsePhase env gid locs =
      (locs.map (fun l => Event.parseCall l.source), taggedUnion env gid locs, none) := by
  induction locs with
  | nil => simp [parsePhase, taggedUnion]
  | cons l rest ih =>
    have hl := h l (by simp)
    have hrest : ∀ l2 ∈ rest, l2.source ∈ env.registered ∧
        env.parseOk l2.source l2.location l2.config = true := by
      intro l2 hl2
      exact h l2 (by simp [hl2])
    rw [parsePhase, if_pos hl.1, if_pos hl.2, ih hrest]
    simp [taggedUnion]

theorem taggedUnion_tagged (env : Env) (gid : String) (locs : List LocDesc) :
    ∀ r ∈ taggedUnion env gid locs, r._groupId = some gid := by
  intro r hr
  simp [taggedUnion] at hr
  rcases hr with ⟨l, _, x, _, rfl⟩
  rfl

theorem taggedUnion_ne_nil (env : Env) (gid : String) (l : LocDesc)
    (rest : List LocDesc)
    (h : env.parseRecs l.source l.location l.config ≠ []) :
    taggedUnion env gid (l :: rest) ≠ [] := by
  simp only [taggedUnion, List.map_cons, List.flatten_cons]
  intro hc
  rcases List.append_eq_nil.mp hc with ⟨h1, _⟩
  exact h (List.map_eq_nil_iff.mp h1)

/-! ### Run-shape lemmas -/

theorem parseCall_not_mem_failEvents (s : String) (dir : Option String)
    (reason : String) : Event.parseCall s ∉ failEvents dir reason := by
  intro h
  cases dir <;> simp [failEvents] at h

theorem storeCall_not_mem_failEvents (n : Nat) (dir : Option String)
    (reason : String) : Event.storeCall n ∉ failEvents dir reason := by
  intro h
  cases dir <;> simp [failEvents] at h

theorem afterParse_split (env : Env) (dir : Option String) (db1 : DB)
    (tr1 : List Event) (recs : List EventRecord) :
    ∃ post, (afterParse env dir db1 tr1 recs).trace = tr1 ++ post ∧
      (∀ e ∈ post, isPostDeleteEvent e = true) ∧
      (∀ s, Event.parseCall s ∉ post) := by
  unfold afterParse
  cases he : recs.isEmpty with
  | true =>
    refine ⟨failEvents dir "No results", by simp [finishFail], mem_failEvents_post _ _, ?_⟩
    intro s
    exact parseCall_not_mem_failEvents s dir _
  | false =>
    cases hs : env.storeOk with
    | true =>
      refine ⟨[Event.storeCall recs.length, Event.dbClose], by simp, ?_, ?_⟩
      · intro e hee
        simp at hee
        rcases hee with rfl | rfl <;> rfl
      · intro s hs2
        simp at hs2
    | false =>
      refine ⟨[Event.storeCall recs.length] ++ failEvents dir "Problem with DB, Oh Noes!",
        by simp [finishFail], ?_, ?_⟩
      · intro e hee
        rcases List.mem_append.mp hee with h1 | h1
        · simp at h1
          subst h1; rfl
        · exact mem_failEvents_post _ _ e h1
      · intro s hs2
        rcases List.mem_append.mp hs2 with h1 | h1
        · simp at h1
        · exact parseCall_not_mem_failEvents s dir _ h1

theorem afterDelete_split (env : Env) (dir : Option String) (gid : String)
    (db1 : DB) (tr1 : List Event) (locs : List LocDesc) :
    ∃ post, (afterDelete env dir gid db1 tr1 locs).trace = tr1 ++ post ∧
      (∀ e ∈ post, isPostDeleteEvent e = true) ∧
      (∀ s, Event.parseCall s ∈ post → ∃ l ∈ locs, l.source = s) := by
  have hptr := parsePhase_trace_mem env gid locs
  rcases hp : parsePhase env gid locs with ⟨ptr, recs, t⟩
  rw [hp] at hptr
  have hptrPost : ∀ e ∈ ptr, isPostDeleteEvent e = true := by
    intro e hee
    rcases hptr e hee with ⟨l, _, rfl⟩
    rfl
  have hptrSrc : ∀ s, Event.parseCall s ∈ ptr → ∃ l ∈ locs, l.source = s := by
    intro s hs2
    rcases hptr _ hs2 with ⟨l, hl, heq⟩
    exact ⟨l, hl, by injection heq with h2; exact h2.symm⟩
  cases t with
  | none =>
    rcases afterParse_split env dir db1 (tr1 ++ ptr) recs with ⟨post, htr, hpost, hnp⟩
    refine ⟨ptr ++ post, ?_, ?_, ?_⟩
    · rw [afterDelete, hp]
      simp only [htr, List.append_assoc]
    · intro e hee
      rcases List.mem_append.mp hee with h1 | h1
      · exact hptrPost e h1
      · exact hpost e h1
    · intro s hs2
      rcases List.mem_append.mp hs2 with h1 | h1
      · exact hptrSrc s h1
      · exact absurd h1 (hnp s)
  | some t0 =>
    cases t0 with
    | failExit r =>
      refine ⟨ptr ++ failEvents dir r, ?_, ?_, ?_⟩
      · rw [afterDelete, hp]
        simp [finishFail]
      · intro e hee
        rcases List.mem_append.mp hee with h1 | h1
        · exact hptrPost e h1
        · exact mem_failEvents_post _ _ e h1
      · intro s hs2
        rcases List.mem_append.mp hs2 with h1 | h1
        · exact hptrSrc s h1
        · exact absurd h1 (parseCall_not_mem_failEvents s dir r)
    | crash m =>
      refine ⟨ptr, ?_, hptrPost, hptrSrc⟩
      rw [afterDelete, hp]

theorem afterDownload_split (env : Env) (dir : Option String) (gid : String)
    (db : DB) (dtr : List Event) (locs : List LocDesc) :
    ∃ post, (afterDownload env dir gid db dtr locs).trace =
        dtr ++ Event.deleteCall gid :: post ∧
      (∀ e ∈ post, isPostDeleteEvent e = true) ∧
      (∀ s, Event.parseCall s ∈ post → ∃ l ∈ locs, l.source = s) := by
  cases hd : env.deleteOk with
  | true =>
    rcases afterDelete_split env dir gid (deleteData gid db)
      (dtr ++ [Event.deleteCall gid]) locs with ⟨post, htr, hpost, hsrc⟩
    refine ⟨post, ?_, hpost, hsrc⟩
    rw [afterDownload, if_pos hd, htr]
    simp
  | false =>
    refine ⟨failEvents dir "Just another error", ?_, mem_failEvents_post _ _, ?_⟩
    · rw [afterDownload, if_neg (by simp [hd])]
      simp [finishFail]
    · intro s hs2
      exact absurd hs2 (parseCall_not_mem_failEvents s dir _)

theorem runJob_cases (env : Env) (dir : Option String) (desc : JobDesc)
    (gid : String) (db : DB) (hg : desc.groupId = some gid) :
    (env.mongoStartOk = false ∧
       runJob env dir desc db = finishFail dir "Just another error" [] db none) ∨
    (∃ dtr r, env.mongoStartOk = true ∧
       download env desc gid = (dtr, DownloadRes.terminal (.failExit r)) ∧
       runJob env dir desc db = finishFail dir r dtr db none) ∨
    (∃ dtr m, env.mongoStartOk = true ∧
       download env desc gid = (dtr, DownloadRes.terminal (.crash m)) ∧
       runJob env dir desc db =
         { trace := dtr, outcome := .crashed m, db := db, stored := none }) ∨
    (∃ dtr locs, env.mongoStartOk = true ∧
       download env desc gid = (dtr, DownloadRes.ok locs) ∧
       runJob env dir desc db = afterDownload env dir gid db dtr locs) := by
  have hrun : runJob env dir desc db = go env dir desc gid db := by
    rw [runJob, hg]
  cases hm : env.mongoStartOk with
  | false =>
    left
    exact ⟨rfl, by simp [hrun, go, hm]⟩
  | true =>
    rcases hdl : download env desc gid with ⟨dtr, dres⟩
    cases dres with
    | ok locs =>
      right; right; right
      exact ⟨dtr, locs, rfl, rfl, by simp [hrun, go, hm, hdl]⟩
    | terminal t =>
      cases t with
      | failExit r =>
        right; left
        exact ⟨dtr, r, rfl, rfl, by simp [hrun, go, hm, hdl]⟩
      | crash m =>
        right; right; left
        exact ⟨dtr, m, rfl, rfl, by simp [hrun, go, hm, hdl]⟩

theorem afterParse_shape (env : Env) (dir : Option String) (db1 : DB)
    (tr1 : List Event) (recs : List EventRecord) :
    (∃ tr reason st, afterParse env dir db1 tr1 recs = finishFail dir reason tr db1 st) ∨
    (afterParse env dir db1 tr1 recs =
       { trace := tr1 ++ [Event.storeCall recs.length, Event.dbClose],
         outcome := .exited 0, db := db1 ++ recs, stored := some recs }) := by
  unfold afterParse
  cases he : recs.isEmpty with
  | true => exact Or.inl ⟨tr1, "No results", none, rfl⟩
  | false =>
    cases hs : env.storeOk with
    | true => exact Or.inr rfl
    | false =>
      exact Or.inl ⟨tr1 ++ [Event.storeCall recs.length],
        "Problem with DB, Oh Noes!", some recs, rfl⟩

theorem afterDelete_shape (env : Env) (dir : Option String) (gid : String)
    (db1 : DB) (tr1 : List Event) (locs : List LocDesc) :
    (∃ tr reason st, afterDelete env dir gid db1 tr1 locs = finishFail dir reason tr db1 st) ∨
    (∃ tr m, afterDelete env dir gid db1 tr1 locs =
       { trace := tr, outcome := .crashed m, db := db1, stored := none }) ∨
    (∃ tr recs, afterDelete env dir gid db1 tr1 locs =
       { trace := tr ++ [Event.storeCall recs.length, Event.dbClose],
         outcome := .exited 0, db := db1 ++ recs, stored := some recs }) := by
  rcases hp : parsePhase env gid locs with ⟨ptr, recs, t⟩
  cases t with
  | none =>
    rcases afterParse_shape env dir db1 (tr1 ++ ptr) recs with ⟨tr, reason, st, hsh⟩ | hsh
    · exact Or.inl ⟨tr, reason, st, by rw [afterDelete, hp]; exact hsh⟩
    · exact Or.inr (Or.inr ⟨tr1 ++ ptr, recs, by rw [afterDelete, hp]; exact hsh⟩)
  | some t0 =>
    cases t0 with
    | failExit r =>
      exact Or.inl ⟨tr1 ++ ptr, r, none, by rw [afterDelete, hp]⟩
    | crash m =>
      exact Or.inr (Or.inl ⟨tr1 ++ ptr, m, by rw [afterDelete, hp]⟩)

theorem afterDownload_shape (env : Env) (dir : Option String) (gid : String)
    (db : DB) (dtr : List Event) (locs : List LocDesc) :
    (∃ tr reason dbx st, afterDownload env dir gid db dtr locs = finishFail dir reason tr dbx st) ∨
    (∃ tr m dbx, afterDownload env dir gid db dtr locs =
       { trace := tr, outcome := .crashed m, db := dbx, stored := none }) ∨
    (∃ tr dbx recs, afterDownload env dir gid db dtr locs =
       { trace := tr ++ [Event.storeCall recs.length, Event.dbClose],
         outcome := .exited 0, db := dbx ++ recs, stored := some recs }) := by
  cases hd : env.deleteOk with
  | true =>
    rcases afterDelete_shape env dir gid (deleteData gid db)
        (dtr ++ [Event.deleteCall gid]) locs with
      ⟨tr, reason, st, hsh⟩ | ⟨tr, m, hsh⟩ | ⟨tr, recs, hsh⟩
    · exact Or.inl ⟨tr, reason, deleteData gid db, st,
        by rw [afterDownload, if_pos hd]; exact hsh⟩
    · exact Or.inr (Or.inl ⟨tr, m, deleteData gid db,
        by rw [afterDownload, if_pos hd]; exact hsh⟩)
    · exact Or.inr (Or.inr ⟨tr, deleteData gid db, recs,
        by rw [afterDownload, if_pos hd]; exact hsh⟩)
  | false =>
    exact Or.inl ⟨dtr ++ [Event.deleteCall gid], "Just another error", db, none,
      by rw [afterDownload, if_neg (by simp [hd])]⟩

theorem runJob_shape (env : Env) (dir : Option String) (desc : JobDesc) (db : DB) :
    (∃ tr reason dbx st, runJob env dir desc db = finishFail dir reason tr dbx st) ∨
    (∃ tr m dbx, runJob env dir desc db =
       { trace := tr, outcome := .crashed m, db := dbx, stored := none }) ∨
    (∃ tr dbx recs, runJob env dir desc db =
       { trace := tr ++ [Event.storeCall recs.length, Event.dbClose],
         outcome := .exited 0, db := dbx ++ recs, stored := some recs }) := by
  cases hg : desc.groupId with
  | none =>
    exact Or.inr (Or.inl ⟨[], "groupId is a required property", db, by rw [runJob, hg]⟩)
  | some gid =>
    rcases runJob_cases env dir desc gid db hg with
      ⟨_, hr⟩ | ⟨dtr, r, _, _, hr⟩ | ⟨dtr, m, _, _, hr⟩ | ⟨dtr, locs, _, _, hr⟩
    · exact Or.inl ⟨[], "Just another error", db, none, hr⟩
    · exact Or.inl ⟨dtr, r, db, none, hr⟩
    · exact Or.inr (Or.inl ⟨dtr, m, db, hr⟩)
    · rw [hr]
      exact afterDownload_shape env dir gid db dtr locs

/-! ### Stored-records lemmas -/

theorem afterParse_stored (env : Env) (dir : Option String) (db1 : DB)
    (tr1 : List Event) (recs rs : List EventRecord)
    (h : (afterParse env dir db1 tr1 recs).stored = some rs) : rs = recs := by
  unfold afterParse at h
  cases he : recs.isEmpty with
  | true => rw [if_pos (by simp [he])] at h; simp [finishFail] at h
  | false =>
    rw [if_neg (by simp [he])] at h
    cases hs : env.storeOk with
    | true =>
      rw [if_pos hs] at h
      simpa using h.symm
    | false =>
      rw [if_neg (by simp [hs])] at h
      simp [finishFail] at h
      exact h.symm

theorem afterDelete_stored (env : Env) (dir : Option String) (gid : String)
    (db1 : DB) (tr1 : List Event) (locs : List LocDesc) (rs : List EventRecord)
    (h : (afterDelete env dir gid db1 tr1 locs).stored = some rs) :
    ∀ r ∈ rs, r._groupId = some gid := by
  have htag := parsePhase_records_tagged env gid locs
  rcases hp : parsePhase env gid locs with ⟨ptr, recs, t⟩
  rw [hp] at htag
  rw [afterDelete, hp] at h
  cases t with
  | none =>
    have := afterParse_stored env dir db1 (tr1 ++ ptr) recs rs h
    subst this
    exact htag
  | some t0 =>
    cases t0 with
    | failExit r => simp [finishFail] at h
    | crash m => simp at h

/-! ### Download characterization -/

theorem fetchOne_fetch_filename (env : Env) (gid f : String)
    (cfgO : Option SourceConfig) (ty f2 : String)
    (h : Event.fetchCall ty f2 ∈ (fetchOne env gid f cfgO).1) :
    f2 = f ∧ cfgO ≠ none := by
  cases cfgO with
  | none => simp [fetchOne] at h
  | some c =>
    by_cases hr : c.type ∈ env.registered
    · cases hf : env.fetchOk c.type with
      | false =>
        simp [fetchOne, hr, hf] at h
        exact ⟨h.2, by simp⟩
      | true =>
        cases hs : env.saveResult gid f with
        | ok loc =>
          simp [fetchOne, hr, hf, hs] at h
          exact ⟨h.2, by simp⟩
        | error m =>
          simp [fetchOne, hr, hf, hs] at h
          exact ⟨h.2, by simp⟩
    · simp [fetchOne, hr] at h

theorem stdBranch_fetch_filename (env : Env) (gid s f : String)
    (cfgO : Option SourceConfig) (k : Bool) (ty f2 : String)
    (h : Event.fetchCall ty f2 ∈ (stdBranch env gid s f cfgO k).1) :
    f2 = f ∧ cfgO ≠ none := by
  rw [stdBranch_trace_eq] at h
  exact fetchOne_fetch_filename env gid f cfgO ty f2 h

theorem dexcomBranch_fetch_filename (env : Env) (gid : String)
    (cfgO : Option SourceConfig) (ty f2 : String)
    (h : Event.fetchCall ty f2 ∈ (dexcomBranch env gid cfgO).1) :
    f2 = "dexcom.csv" ∧ cfgO ≠ none := by
  cases cfgO with
  | none => simp [dexcomBranch] at h
  | some cfg =>
    rcases hfo : fetchOne env gid "dexcom.csv" (some cfg) with ⟨tr, r⟩
    have hmem : Event.fetchCall ty f2 ∈ tr → f2 = "dexcom.csv" ∧ (some cfg : Option SourceConfig) ≠ none := by
      intro hin
      exact fetchOne_fetch_filename env gid "dexcom.csv" (some cfg) ty f2 (by rw [hfo]; exact hin)
    cases hu : env.unlinkOk <;>
      cases r <;> simp [dexcomBranch, hfo, hu] at h <;>
      exact hmem h

theorem stdBranch_ok (env : Env) (gid s f : String) (cfgO : Option SourceConfig)
    (k : Bool) (d : Option LocDesc)
    (h : (stdBranch env gid s f cfgO k).2 = BranchRes.ok d) :
    (cfgO = none ∧ d = none) ∨
    (∃ cfg loc, cfgO = some cfg ∧
       d = some { source := s, location := some loc,
                  config := if k then some cfg else none }) := by
  cases cfgO with
  | none =>
    left
    refine ⟨rfl, ?_⟩
    simp [stdBranch, fetchOne] at h
    exact h.symm
  | some cfg =>
    right
    by_cases hr : cfg.type ∈ env.registered
    · cases hf : env.fetchOk cfg.type with
      | false => simp [stdBranch, fetchOne, hr, hf] at h
      | true =>
        cases hs : env.saveResult gid f with
        | ok loc =>
          refine ⟨cfg, loc, rfl, ?_⟩
          simp [stdBranch, fetchOne, hr, hf, hs] at h
          exact h.symm
        | error m => simp [stdBranch, fetchOne, hr, hf, hs] at h
    · simp [stdBranch, fetchOne, hr] at h

theorem dexcomBranch_ok (env : Env) (gid : String) (cfgO : Option SourceConfig)
    (d : Option LocDesc)
    (h : (dexcomBranch env gid cfgO).2 = BranchRes.ok d) :
    (cfgO = none ∧ d = none) ∨
    (∃ cfg loc, cfgO = some cfg ∧
       d = some { source := "dexcom", location := some loc, config := some cfg }) := by
  cases cfgO with
  | none =>
    left
    refine ⟨rfl, ?_⟩
    simp [dexcomBranch] at h
    exact h.symm
  | some cfg =>
    right
    by_cases hr : cfg.type ∈ env.registered
    · cases hf : env.fetchOk cfg.type with
      | false => simp [dexcomBranch, fetchOne, hr, hf] at h
      | true =>
        cases hs : env.saveResult gid "dexcom.csv" with
        | ok loc =>
          refine ⟨cfg, loc, rfl, ?_⟩
          simp [dexcomBranch, fetchOne, hr, hf, hs] at h
          exact h.symm
        | error m => simp [dexcomBranch, fetchOne, hr, hf, hs] at h
    · simp [dexcomBranch, fetchOne, hr] at h

theorem collectBranches_ok (bs : List (List Event × BranchRes)) (tr : List Event)
    (ds : List (Option LocDesc)) (h : collectBranches bs = (tr, ParRes.ok ds)) :
    List.Forall₂ (fun b d => b.2 = BranchRes.ok d) bs ds := by
  induction bs generalizing tr ds with
  | nil =>
    simp [collectBranches] at h
    rcases h with ⟨rfl, rfl⟩
    exact List.Forall₂.nil
  | cons b rest ih =>
    rcases b with ⟨tr0, r⟩
    cases r with
    | ok d =>
      rcases hrec : collectBranches rest with ⟨tr2, pr⟩
      rw [collectBranches, hrec] at h
      cases pr with
      | ok ds2 =>
        simp at h
        rcases h with ⟨rfl, rfl⟩
        exact List.Forall₂.cons rfl (ih tr2 ds2 (by rw [hrec]))
      | err m => simp at h
      | terminal t => simp at h
    | err m => simp [collectBranches] at h
    | terminal t => simp [collectBranches] at h

theorem reduceOption_four {α : Type} (d1 d2 d3 d4 : Option α) :
    List.reduceOption [d1, d2, d3, d4] =
      d1.toList ++ d2.toList ++ d3.toList ++ d4.toList := by
  cases d1 <;> cases d2 <;> cases d3 <;> cases d4 <;> rfl

theorem download_ok (env : Env) (desc : JobDesc) (gid : String)
    (dtr : List Event) (locs : List LocDesc)
    (h : download env desc gid = (dtr, DownloadRes.ok locs)) :
    ∃ ds, collectBranches (branches env desc gid) = (dtr, ParRes.ok ds) ∧
      locs = ds.reduceOption := by
  unfold download at h
  rcases hc : collectBranches (branches env desc gid) with ⟨tr, pr⟩
  rw [hc] at h
  cases pr with
  | ok ds =>
    simp at h
    obtain ⟨h1, h2⟩ := h
    subst h1
    exact ⟨ds, rfl, h2.symm⟩
  | err m => simp at h
  | terminal t => simp at h

theorem download_ok_descriptors (env : Env) (desc : JobDesc) (gid : String)
    (dtr : List Event) (locs : List LocDesc)
    (h : download env desc gid = (dtr, DownloadRes.ok locs)) :
    ∃ d1 d2 d3 d4 : Option LocDesc,
      locs = d1.toList ++ d2.toList ++ d3.toList ++ d4.toList ∧
      ((desc.carelink = none ∧ d1 = none) ∨ (∃ cfg loc, desc.carelink = some cfg ∧
          d1 = some { source := "carelink", location := some loc, config := some cfg })) ∧
      ((desc.diasend = none ∧ d2 = none) ∨ (∃ cfg loc, desc.diasend = some cfg ∧
          d2 = some { source := "diasend", location := some loc, config := some cfg })) ∧
      ((desc.tconnect = none ∧ d3 = none) ∨ (∃ cfg loc, desc.tconnect = some cfg ∧
          d3 = some { source := "tconnect", location := some loc, config := none })) ∧
      ((desc.dexcom = none ∧ d4 = none) ∨ (∃ cfg loc, desc.dexcom = some cfg ∧
          d4 = some { source := "dexcom", location := some loc, config := some cfg })) := by
  rcases download_ok env desc gid dtr locs h with ⟨ds, hc, hred⟩
  have hf2 := collectBranches_ok _ _ _ hc
  rw [branches] at hf2
  cases hf2 with
  | cons h1 hf2 =>
    rename_i d1 ds1
    cases hf2 with
    | cons h2 hf2 =>
      rename_i d2 ds2
      cases hf2 with
      | cons h3 hf2 =>
        rename_i d3 ds3
        cases hf2 with
        | cons h4 hf2 =>
          rename_i d4 ds4
          cases hf2
          refine ⟨d1, d2, d3, d4, ?_, ?_, ?_, ?_, ?_⟩
          · rw [hred, reduceOption_four]
          · rcases stdBranch_ok _ _ _ _ _ _ _ h1 with ⟨hn, hd⟩ | ⟨cfg, loc, hc2, hd⟩
            · exact Or.inl ⟨hn, hd⟩
            · exact Or.inr ⟨cfg, loc, hc2, by rw [hd]; simp⟩
          · rcases stdBranch_ok _ _ _ _ _ _ _ h2 with ⟨hn, hd⟩ | ⟨cfg, loc, hc2, hd⟩
            · exact Or.inl ⟨hn, hd⟩
            · exact Or.inr ⟨cfg, loc, hc2, by rw [hd]; simp⟩
          · rcases stdBranch_ok _ _ _ _ _ _ _ h3 with ⟨hn, hd⟩ | ⟨cfg, loc, hc2, hd⟩
            · exact Or.inl ⟨hn, hd⟩
            · exact Or.inr ⟨cfg, loc, hc2, by rw [hd]; simp⟩
          · rcases dexcomBranch_ok _ _ _ _ h4 with ⟨hn, hd⟩ | ⟨cfg, loc, hc2, hd⟩
            · exact Or.inl ⟨hn, hd⟩
            · exact Or.inr ⟨cfg, loc, hc2, by rw [hd]⟩

/-! ### Event-origin lemmas -/

theorem run_fetch_origin (env : Env) (dir : Option String) (desc : JobDesc)
    (gid : String) (db : DB) (ty f : String) (hg : desc.groupId = some gid)
    (h : Event.fetchCall ty f ∈ (runJob env dir desc db).trace) :
    Event.fetchCall ty f ∈ (download env desc gid).1 := by
  rcases runJob_cases env dir desc gid db hg with
    ⟨_, hr⟩ | ⟨dtr, r, _, hdl, hr⟩ | ⟨dtr, m, _, hdl, hr⟩ | ⟨dtr, locs, _, hdl, hr⟩
  · rw [hr] at h
    cases dir <;> simp [finishFail, failEvents] at h
  · rw [hr] at h
    cases dir <;> simp [finishFail, failEvents] at h <;> (rw [hdl]; exact h)
  · rw [hr] at h
    rw [hdl]
    exact h
  · rcases afterDownload_split env dir gid db dtr locs with ⟨post, htr, hpost, _⟩
    rw [hr, htr] at h
    rcases List.mem_append.mp h with h1 | h1
    · rw [hdl]
      exact h1
    · rcases List.mem_cons.mp h1 with heq | h1
      · exact absurd heq (by simp)
      · exact absurd (hpost _ h1) (by simp [isPostDeleteEvent])

theorem run_parse_origin (env : Env) (dir : Option String) (desc : JobDesc)
    (gid : String) (db : DB) (s : String) (hg : desc.groupId = some gid)
    (h : Event.parseCall s ∈ (runJob env dir desc db).trace) :
    ∃ dtr locs, download env desc gid = (dtr, DownloadRes.ok locs) ∧
      ∃ l ∈ locs, l.source = s := by
  rcases runJob_cases env dir desc gid db hg with
    ⟨_, hr⟩ | ⟨dtr, r, _, hdl, hr⟩ | ⟨dtr, m, _, hdl, hr⟩ | ⟨dtr, locs, _, hdl, hr⟩
  · rw [hr] at h
    cases dir <;> simp [finishFail, failEvents] at h
  · have hdtr : ∀ e ∈ dtr, isPreDeleteEvent e = true := by
      have h2 := download_trace_pre env desc gid
      rw [hdl] at h2
      exact h2
    rw [hr] at h
    cases dir <;> simp [finishFail, failEvents] at h <;>
      exact absurd (hdtr _ h) (by simp [isPreDeleteEvent])
  · have hdtr : ∀ e ∈ dtr, isPreDeleteEvent e = true := by
      have h2 := download_trace_pre env desc gid
      rw [hdl] at h2
      exact h2
    rw [hr] at h
    exact absurd (hdtr _ h) (by simp [isPreDeleteEvent])
  · have hdtr : ∀ e ∈ dtr, isPreDeleteEvent e = true := by
      have h2 := download_trace_pre env desc gid
      rw [hdl] at h2
      exact h2
    rcases afterDownload_split env dir gid db dtr locs with ⟨post, htr, _, hsrc⟩
    rw [hr, htr] at h
    rcases List.mem_append.mp h with h1 | h1
    · exact absurd (hdtr _ h1) (by simp [isPreDeleteEvent])
    · rcases List.mem_cons.mp h1 with heq | h1
      · exact absurd heq (by simp)
      · exact ⟨dtr, locs, hdl, hsrc s h1⟩

/-! ### Concrete instances -/

/-- A carelink source configuration used in concrete runs. -/
def cfgCarelink : SourceConfig := { type := "carelink", username := "u", file := "cl.dat" }

/-- A dexcom source configuration with its staging file. -/
def cfgDexcom : SourceConfig := { type := "dexcom", username := "u", file := "stage.csv" }

/-- A tconnect source configuration. -/
def cfgTconnect : SourceConfig := { type := "tconnect", username := "u", file := "tc.dat" }

/-- An untagged parser-output record. -/
def sampleRec (n : Nat) : EventRecord := { payload := n, _groupId := none }

/-- An environment in which every collaborator succeeds and every adapter is
registered; each parse yields three records. -/
def envAllOk : Env :=
  { registered := ["carelink", "diasend", "tconnect", "dexcom"],
    fetchOk := fun _ => true,
    saveResult := fun _ _ => .ok "loc1",
    parseRecs := fun _ _ _ => [sampleRec 1, sampleRec 2, sampleRec 3],
    parseOk := fun _ _ _ => true,
    mongoStartOk := true, deleteOk := true, storeOk := true, unlinkOk := true }

/-- Like `envAllOk` but every fetcher fails. -/
def envFetchFail : Env := { envAllOk with fetchOk := fun _ => false }

/-- Like `envAllOk` but the bulk store fails. -/
def envStoreFail : Env := { envAllOk with storeOk := false }

/-- Job with only carelink configured. -/
def descCarelinkOnly : JobDesc :=
  { groupId := some "g1", carelink := some cfgCarelink,
    diasend := none, tconnect := none, dexcom := none }

/-- Scenario B job: a groupId and no sources. -/
def descNoSources : JobDesc :=
  { groupId := some "g2", carelink := none, diasend := none,
    tconnect := none, dexcom := none }

/-- Job lacking the required groupId. -/
def descNoGroup : JobDesc :=
  { groupId := none, carelink := some cfgCarelink,
    diasend := none, tconnect := none, dexcom := none }

/-- Job with only tconnect configured. -/
def descTconnectOnly : JobDesc :=
  { groupId := some "g4", carelink := none, diasend := none,
    tconnect := some cfgTconnect, dexcom := none }

/-- Job with only dexcom configured. -/
def descDexcomOnly : JobDesc :=
  { groupId := some "g5", carelink := none, diasend := none,
    tconnect := none, dexcom := some cfgDexcom }

/-! ### Claims -/

/-- C2: for every Job Description lacking `groupId`, the run fails (by the
uncaught `pre.hasProperty` throw in the stdin handler) before any fetch,
delete or store call: its trace is empty, the outcome is the crash, and the
persisted store is untouched. -/
theorem claim2_missing_groupId_fails_before_any_call (env : Env)
    (dir : Option String) (desc : JobDesc) (db : DB)
    (h : desc.groupId = none) :
    (runJob env dir desc db).trace = [] ∧
    (runJob env dir desc db).outcome =
      Outcome.crashed "groupId is a required property" ∧
    (runJob env dir desc db).db = db ∧
    (runJob env dir desc db).stored = none := by
  rw [runJob, h]
  exact ⟨rfl, rfl, rfl, rfl⟩

/-- C2 witness: the concrete no-groupId job crashes with an empty trace. -/
theorem claim2_witness :
    descNoGroup.groupId = none ∧
    (runJob envAllOk (some "art") descNoGroup []).trace = [] ∧
    (runJob envAllOk (some "art") descNoGroup []).outcome =
      Outcome.crashed "groupId is a required property" :=
  ⟨rfl,
   (claim2_missing_groupId_fails_before_any_call envAllOk (some "art")
      descNoGroup [] rfl).1,
   (claim2_missing_groupId_fails_before_any_call envAllOk (some "art")
      descNoGroup [] rfl).2.1⟩

/-- C6 (amended): every run terminates with exit 0, exit 255 or an uncaught
crash; every exit-255 path is produced by the single `fail` routine, so its
trace ends with the close / log / artifact-when-dir event sequence; the
success path also closes the database connection.  (The original claim that
there are exactly two terminal outcomes and that every failure funnels
through `fail` is refuted by the counterexample: the missing-groupId and
unknown-fetch-service throws crash the process without that sequence.) -/
theorem claim6_outcomes_and_fail_funnel (env : Env) (dir : Option String)
    (desc : JobDesc) (db : DB) :
    ((runJob env dir desc db).outcome = Outcome.exited 0 ∨
     (runJob env dir desc db).outcome = Outcome.exited 255 ∨
     ∃ m, (runJob env dir desc db).outcome = Outcome.crashed m) ∧
    ((runJob env dir desc db).outcome = Outcome.exited 255 →
       ∃ pre reason, (runJob env dir desc db).trace = pre ++ failEvents dir reason) ∧
    ((runJob env dir desc db).outcome = Outcome.exited 0 →
       Event.dbClose ∈ (runJob env dir desc db).trace) := by
  rcases runJob_shape env dir desc db with
    ⟨tr, reason, dbx, st, hr⟩ | ⟨tr, m, dbx, hr⟩ | ⟨tr, dbx, recs, hr⟩
  · rw [hr]
    exact ⟨Or.inr (Or.inl rfl), fun _ => ⟨tr, reason, rfl⟩,
      fun h0 => by simp [finishFail] at h0⟩
  · rw [hr]
    exact ⟨Or.inr (Or.inr ⟨m, rfl⟩), fun h0 => by simp at h0,
      fun h0 => by simp at h0⟩
  · rw [hr]
    exact ⟨Or.inl rfl, fun h0 => by simp at h0, fun _ => by simp⟩

/-- C6 counterexample: the missing-groupId configuration error terminates
the process by an uncaught exception: the outcome is neither exit 0 nor
exit 255, the database is never closed and no artifact is written (empty
trace), so this failure path does not go through the reporting routine. -/
theorem claim6_cex_missing_groupId_bypasses_fail :
    (runJob envAllOk (some "art") descNoGroup []).outcome =
      Outcome.crashed "groupId is a required property" ∧
    (runJob envAllOk (some "art") descNoGroup []).outcome ≠ Outcome.exited 255 ∧
    (runJob envAllOk (some "art") descNoGroup []).outcome ≠ Outcome.exited 0 ∧
    (runJob envAllOk (some "art") descNoGroup []).trace = [] := by
  refine ⟨rfl, ?_, ?_, rfl⟩ <;> decide

/-- C8: every Normalized Event Record handed to the bulk `storeData` call
carries the run's `groupId` tag set by the merge stage. -/
theorem claim8_stored_records_tagged (env : Env) (dir : Option String)
    (desc : JobDesc) (gid : String) (db : DB) (rs : List EventRecord)
    (hg : desc.groupId = some gid)
    (hs : (runJob env dir desc db).stored = some rs) :
    ∀ r ∈ rs, r._groupId = some gid := by
  rcases runJob_cases env dir desc gid db hg with
    ⟨_, hr⟩ | ⟨dtr, r0, _, _, hr⟩ | ⟨dtr, m, _, _, hr⟩ | ⟨dtr, locs, _, _, hr⟩
  · rw [hr] at hs
    simp [finishFail] at hs
  · rw [hr] at hs
    simp [finishFail] at hs
  · rw [hr] at hs
    simp at hs
  · rw [hr] at hs
    by_cases hd : env.deleteOk = true
    · rw [afterDownload, if_pos hd] at hs
      exact afterDelete_stored env dir gid (deleteData gid db)
        (dtr ++ [Event.deleteCall gid]) locs rs hs
    · rw [afterDownload, if_neg hd] at hs
      simp [finishFail] at hs

/-- C8 witness: the concrete successful carelink run stores exactly the
three parsed records, all tagged with the group. -/
theorem claim8_witness :
    (runJob envAllOk none descCarelinkOnly []).stored =
      some [{ payload := 1, _groupId := some "g1" },
            { payload := 2, _groupId := some "g1" },
            { payload := 3, _groupId := some "g1" }] ∧
    ∀ r ∈ [({ payload := 1, _groupId := some "g1" } : EventRecord),
           { payload := 2, _groupId := some "g1" },
           { payload := 3, _groupId := some "g1" }], r._groupId = some "g1" :=
  ⟨rfl, claim8_stored_records_tagged envAllOk none descCarelinkOnly "g1" [] _ rfl rfl⟩

/-- C9: the sync-task predicates are total and mutually exclusive:
`isSuccessful` holds exactly of a non-null task with status success,
`isFailed` exactly of a non-null task with status error, no task satisfies
both, and a null task yields false / false / null id. -/
theorem claim9_synctask_predicates (t : Option SyncTask) :
    (syncTaskService.isSuccessful t = true ↔
       ∃ task, t = some task ∧ task.status = some "success") ∧
    (syncTaskService.isFailed t = true ↔
       ∃ task, t = some task ∧ task.status = some "error") ∧
    ¬(syncTaskService.isSuccessful t = true ∧ syncTaskService.isFailed t = true) ∧
    (t = none → syncTaskService.isSuccessful t = false ∧
       syncTaskService.isFailed t = false ∧ syncTaskService.getTaskId t = none) := by
  cases t with
  | none =>
    refine ⟨?_, ?_, ?_, ?_⟩ <;>
      simp [syncTaskService.isSuccessful, syncTaskService.isFailed,
        syncTaskService.getTaskId]
  | some task =>
    refine ⟨?_, ?_, ?_, ?_⟩
    · simp [syncTaskService.isSuccessful]
    · simp [syncTaskService.isFailed]
    · rintro ⟨h1, h2⟩
      simp [syncTaskService.isSuccessful] at h1
      simp [syncTaskService.isFailed] at h2
      rw [h1] at h2
      simp at h2
    · intro h
      exact absurd h (by simp)

/-- C9 witness: concrete tasks on each side of the predicates. -/
theorem claim9_witness :
    (syncTaskService.isSuccessful
        (some { status := some "success", _id := some "t1" }) = true ↔
      ∃ task, (some { status := some "success", _id := some "t1" } :
          Option SyncTask) = some task ∧ task.status = some "success") ∧
    ¬(syncTaskService.isSuccessful (none : Option SyncTask) = true ∧
      syncTaskService.isFailed (none : Option SyncTask) = true) :=
  ⟨(claim9_synctask_predicates
      (some { status := some "success", _id := some "t1" })).1,
   (claim9_synctask_predicates (none : Option SyncTask)).2.2.1⟩

/-- C10: the carelink fetcher throws on an options object missing username,
password or daysAgo before issuing any request; with all three present the
three requests are issued in order, and the CSV date window runs from today
back to `daysAgo || 14` days, so a present-but-zero daysAgo falls back to a
14-day window. -/
theorem claim10_carelink_validation_and_window (today : Int)
    (opts : CarelinkOpts) :
    ((opts.username = none ∨ opts.password = none ∨ opts.daysAgo = none) →
       (carelinkFetchSteps today opts).1 = [] ∧
       (carelinkFetchSteps today opts).2.isSome = true) ∧
    (∀ u p d, opts.username = some u → opts.password = some p →
       opts.daysAgo = some d →
       carelinkFetchSteps today opts =
         ([CarelinkStep.securityPost u p, CarelinkStep.loginGet,
           CarelinkStep.csvPost today (today - (if d = 0 then 14 else (d : Int)))],
          none)) := by
  obtain ⟨ou, op, od⟩ := opts
  constructor
  · intro hmiss
    cases ou with
    | none => simp [carelinkFetchSteps]
    | some u =>
      cases op with
      | none => simp [carelinkFetchSteps]
      | some p =>
        cases od with
        | none => simp [carelinkFetchSteps]
        | some d => simp at hmiss
  · intro u p d hu hp hd
    simp at hu hp hd
    subst hu; subst hp; subst hd
    simp [carelinkFetchSteps]

/-- C10 witness: a zero daysAgo yields the 14-day window; a missing
password yields no requests. -/
theorem claim10_witness :
    carelinkFetchSteps 1000
        { username := some "u", password := some "p", daysAgo := some 0 } =
      ([CarelinkStep.securityPost "u" "p", CarelinkStep.loginGet,
        CarelinkStep.csvPost 1000 (1000 - 14)], none) ∧
    (carelinkFetchSteps 1000
        { username := some "u", password := none, daysAgo := some 5 }).1 = [] := by
  constructor
  · have h := (claim10_carelink_validation_and_window 1000
      { username := some "u", password := some "p", daysAgo := some 0 }).2
      "u" "p" 0 rfl rfl rfl
    simpa using h
  · exact ((claim10_carelink_validation_and_window 1000
      { username := some "u", password := none, daysAgo := some 5 }).1
      (Or.inr (Or.inl rfl))).1

/-- C1: for a Job Description whose configured sources (at least one) all
fetch and parse successfully into at least one record each, with the db
collaborators succeeding, the run exits 0 and the persisted set for the
group afterwards is exactly the union of this run's tagged records (prior
data deleted, one bulk store); running the same run again on the resulting
store leaves the whole persisted store unchanged (replace, not append). -/
theorem claim1_success_replaces_and_is_idempotent (env : Env)
    (dir : Option String) (desc : JobDesc) (gid : String) (db : DB)
    (dtr : List Event) (locs : List LocDesc)
    (hg : desc.groupId = some gid) (hm : env.mongoStartOk = true)
    (hdel : env.deleteOk = true) (hst : env.storeOk = true)
    (hdl : download env desc gid = (dtr, DownloadRes.ok locs))
    (hne : locs ≠ [])
    (hparse : ∀ l ∈ locs, l.source ∈ env.registered ∧
        env.parseOk l.source l.location l.config = true ∧
        env.parseRecs l.source l.location l.config ≠ []) :
    (runJob env dir desc db).outcome = Outcome.exited 0 ∧
    groupData gid (runJob env dir desc db).db = taggedUnion env gid locs ∧
    (runJob env dir desc (runJob env dir desc db).db).outcome = Outcome.exited 0 ∧
    (runJob env dir desc (runJob env dir desc db).db).db = (runJob env dir desc db).db := by
  have hpp : parsePhase env gid locs =
      (locs.map (fun l => Event.parseCall l.source), taggedUnion env gid locs, none) :=
    parsePhase_all_ok env gid locs (fun l hl => ⟨(hparse l hl).1, (hparse l hl).2.1⟩)
  have htu : taggedUnion env gid locs ≠ [] := by
    cases locs with
    | nil => exact absurd rfl hne
    | cons l rest => exact taggedUnion_ne_nil env gid l rest (hparse l (by simp)).2.2
  have htag := taggedUnion_tagged env gid locs
  have hemp : (taggedUnion env gid locs).isEmpty = false := by
    rcases hX : taggedUnion env gid locs with _ | ⟨a, l2⟩
    · exact absurd hX htu
    · rfl
  have key : ∀ dbx, runJob env dir desc dbx =
      { trace := dtr ++ Event.deleteCall gid ::
          (locs.map (fun l => Event.parseCall l.source) ++
           [Event.storeCall (taggedUnion env gid locs).length, Event.dbClose]),
        outcome := Outcome.exited 0,
        db := deleteData gid dbx ++ taggedUnion env gid locs,
        stored := some (taggedUnion env gid locs) } := by
    intro dbx
    rw [runJob, hg]
    simp [go, hm, hdl, afterDownload, hdel, afterDelete, hpp, afterParse, hemp, hst]
  refine ⟨by rw [key db], ?_, ?_, ?_⟩
  · rw [key db]
    exact groupData_restore gid db (taggedUnion env gid locs) htag
  · rw [key db, key (deleteData gid db ++ taggedUnion env gid locs)]
  · rw [key db, key (deleteData gid db ++ taggedUnion env gid locs)]
    rw [deleteData_append_tagged gid (deleteData gid db) (taggedUnion env gid locs) htag,
      deleteData_idem]

/-- C1 witness: the concrete successful carelink run exits 0, persists the
tagged union for the group, and a second identical run leaves the store
unchanged. -/
theorem claim1_witness :
    download envAllOk descCarelinkOnly "g1" =
      ([Event.fetchCall "carelink" "carelink.csv",
        Event.saveCall "g1" "carelink.csv"],
       DownloadRes.ok [{ source := "carelink", location := some "loc1",
                         config := some cfgCarelink }]) ∧
    (runJob envAllOk none descCarelinkOnly []).outcome = Outcome.exited 0 ∧
    groupData "g1" (runJob envAllOk none descCarelinkOnly []).db =
      taggedUnion envAllOk "g1"
        [{ source := "carelink", location := some "loc1",
           config := some cfgCarelink }] ∧
    (runJob envAllOk none descCarelinkOnly
        (runJob envAllOk none descCarelinkOnly []).db).db =
      (runJob envAllOk none descCarelinkOnly []).db := by
  have h := claim1_success_replaces_and_is_idempotent envAllOk none
    descCarelinkOnly "g1" []
    [Event.fetchCall "carelink" "carelink.csv", Event.saveCall "g1" "carelink.csv"]
    [{ source := "carelink", location := some "loc1", config := some cfgCarelink }]
    rfl rfl rfl rfl rfl (by decide) (by decide)
  exact ⟨rfl, h.1, h.2.1, h.2.2.2⟩

/-- C3: whenever the group delete occurs, it occurs after all fetch-phase
events and before every parse event, and only once the download phase has
completed successfully; and because delete and store are two independent
calls, a run in which the store fails after a successful delete ends with
exit 255 and an empty persisted set for the group. -/
theorem claim3_delete_ordering_and_nontransactionality (env : Env)
    (dir : Option String) (desc : JobDesc) (gid : String) (db : DB)
    (hg : desc.groupId = some gid) :
    (Event.deleteCall gid ∈ (runJob env dir desc db).trace →
      ∃ pre post, (runJob env dir desc db).trace =
          pre ++ Event.deleteCall gid :: post ∧
        (∀ e ∈ pre, isPreDeleteEvent e = true) ∧
        (∀ e ∈ post, isPostDeleteEvent e = true) ∧
        ∃ dtr locs, download env desc gid = (dtr, DownloadRes.ok locs)) ∧
    (∀ dtr locs ptr recs,
      env.mongoStartOk = true → env.deleteOk = true → env.storeOk = false →
      download env desc gid = (dtr, DownloadRes.ok locs) →
      parsePhase env gid locs = (ptr, recs, none) → recs ≠ [] →
      (runJob env dir desc db).outcome = Outcome.exited 255 ∧
      groupData gid (runJob env dir desc db).db = []) := by
  constructor
  · intro hmem
    rcases runJob_cases env dir desc gid db hg with
      ⟨_, hr⟩ | ⟨dtr, r0, _, hdl, hr⟩ | ⟨dtr, m, _, hdl, hr⟩ | ⟨dtr, locs, _, hdl, hr⟩
    · rw [hr] at hmem
      simp only [finishFail, List.nil_append] at hmem
      exact absurd (mem_failEvents_post dir _ _ hmem) (by simp [isPostDeleteEvent])
    · have hdtr : ∀ e ∈ dtr, isPreDeleteEvent e = true := by
        have h2 := download_trace_pre env desc gid
        rw [hdl] at h2
        exact h2
      rw [hr] at hmem
      simp only [finishFail] at hmem
      rcases List.mem_append.mp hmem with h1 | h1
      · exact absurd (hdtr _ h1) (by simp [isPreDeleteEvent])
      · exact absurd (mem_failEvents_post dir _ _ h1) (by simp [isPostDeleteEvent])
    · have hdtr : ∀ e ∈ dtr, isPreDeleteEvent e = true := by
        have h2 := download_trace_pre env desc gid
        rw [hdl] at h2
        exact h2
      rw [hr] at hmem
      exact absurd (hdtr _ hmem) (by simp [isPreDeleteEvent])
    · have hdtr : ∀ e ∈ dtr, isPreDeleteEvent e = true := by
        have h2 := download_trace_pre env desc gid
        rw [hdl] at h2
        exact h2
      rcases afterDownload_split env dir gid db dtr locs with ⟨post, htr, hpost, _⟩
      exact ⟨dtr, post, by rw [hr]; exact htr, hdtr, hpost, dtr, locs, hdl⟩
  · intro dtr locs ptr recs hm hd hst hdl hp hne
    have hemp : recs.isEmpty = false := by
      rcases hX : recs with _ | ⟨a, l2⟩
      · exact absurd hX hne
      · rfl
    have hrun : runJob env dir desc db =
        finishFail dir "Problem with DB, Oh Noes!"
          (dtr ++ [Event.deleteCall gid] ++ ptr ++ [Event.storeCall recs.length])
          (deleteData gid db) (some recs) := by
      rw [runJob, hg]
      simp [go, hm, hdl, afterDownload, hd, afterDelete, hp, afterParse, hemp, hst]
    rw [hrun]
    exact ⟨rfl, deleteData_no_group gid db⟩

/-- C3 witness: in the concrete store-failure run the delete has its place
in the trace and the group's persisted set ends empty. -/
theorem claim3_witness :
    descCarelinkOnly.groupId = some "g1" ∧
    ((Event.deleteCall "g1" ∈ (runJob envStoreFail none descCarelinkOnly
        [{ payload := 9, _groupId := some "g1" }]).trace →
      ∃ pre post, (runJob envStoreFail none descCarelinkOnly
          [{ payload := 9, _groupId := some "g1" }]).trace =
          pre ++ Event.deleteCall "g1" :: post ∧
        (∀ e ∈ pre, isPreDeleteEvent e = true) ∧
        (∀ e ∈ post, isPostDeleteEvent e = true) ∧
        ∃ dtr locs, download envStoreFail descCarelinkOnly "g1" =
          (dtr, DownloadRes.ok locs)) ∧
    (∀ dtr locs ptr recs,
      envStoreFail.mongoStartOk = true → envStoreFail.deleteOk = true →
      envStoreFail.storeOk = false →
      download envStoreFail descCarelinkOnly "g1" = (dtr, DownloadRes.ok locs) →
      parsePhase envStoreFail "g1" locs = (ptr, recs, none) → recs ≠ [] →
      (runJob envStoreFail none descCarelinkOnly
          [{ payload := 9, _groupId := some "g1" }]).outcome = Outcome.exited 255 ∧
      groupData "g1" (runJob envStoreFail none descCarelinkOnly
          [{ payload := 9, _groupId := some "g1" }]).db = [])) :=
  ⟨rfl, claim3_delete_ordering_and_nontransactionality envStoreFail none
      descCarelinkOnly "g1" [{ payload := 9, _groupId := some "g1" }] rfl⟩

/-- C4: when download succeeds, the delete succeeds, and the merged record
collection is empty, the run fails through the distinct "No results" reason
with exit 255, no store call is made, and the store keeps the already
deleted state (the prior data is not restored). -/
theorem claim4_empty_collection_fails_after_delete (env : Env)
    (dir : Option String) (desc : JobDesc) (gid : String) (db : DB)
    (dtr ptr : List Event) (locs : List LocDesc)
    (hg : desc.groupId = some gid) (hm : env.mongoStartOk = true)
    (hdl : download env desc gid = (dtr, DownloadRes.ok locs))
    (hd : env.deleteOk = true)
    (hp : parsePhase env gid locs = (ptr, [], none)) :
    (runJob env dir desc db).outcome = Outcome.exited 255 ∧
    (runJob env dir desc db).trace =
      dtr ++ Event.deleteCall gid :: (ptr ++ failEvents dir "No results") ∧
    (runJob env dir desc db).db = deleteData gid db ∧
    (runJob env dir desc db).stored = none ∧
    (∀ n, Event.storeCall n ∉ (runJob env dir desc db).trace) := by
  have hdtr : ∀ e ∈ dtr, isPreDeleteEvent e = true := by
    have h2 := download_trace_pre env desc gid
    rw [hdl] at h2
    exact h2
  have hptr := parsePhase_trace_mem env gid locs
  rw [hp] at hptr
  have hrun : runJob env dir desc db =
      finishFail dir "No results" (dtr ++ [Event.deleteCall gid] ++ ptr)
        (deleteData gid db) none := by
    rw [runJob, hg]
    simp [go, hm, hdl, afterDownload, hd, afterDelete, hp, afterParse]
  refine ⟨by rw [hrun]; rfl, by rw [hrun]; simp [finishFail], by rw [hrun]; rfl,
    by rw [hrun]; rfl, ?_⟩
  intro n hmem
  rw [hrun] at hmem
  simp only [finishFail, List.append_assoc, List.cons_append, List.nil_append] at hmem
  rcases List.mem_append.mp hmem with h1 | h1
  · exact absurd (hdtr _ h1) (by simp [isPreDeleteEvent])
  · rcases List.mem_cons.mp h1 with heq | h1
    · exact absurd heq (by simp)
    · rcases List.mem_append.mp h1 with h1 | h1
      · rcases hptr _ h1 with ⟨l, _, heq⟩
        exact absurd heq (by simp)
      · exact absurd h1 (storeCall_not_mem_failEvents n dir _)

/-- C4 witness: Scenario B, a groupId with no configured sources: empty
descriptor set, empty merged collection, exit 255 with the prior data for
the group already deleted and no store call. -/
theorem claim4_witness :
    (runJob envAllOk (some "art") descNoSources
        [{ payload := 7, _groupId := some "g2" }]).outcome = Outcome.exited 255 ∧
    (runJob envAllOk (some "art") descNoSources
        [{ payload := 7, _groupId := some "g2" }]).db = [] ∧
    (runJob envAllOk (some "art") descNoSources
        [{ payload := 7, _groupId := some "g2" }]).stored = none := by
  have h := claim4_empty_collection_fails_after_delete envAllOk (some "art")
    descNoSources "g2" [{ payload := 7, _groupId := some "g2" }] [] [] []
    rfl rfl rfl rfl rfl
  exact ⟨h.1, by rw [h.2.2.1]; rfl, h.2.2.2.1⟩

/-! ### Descriptor-source lemmas for C5 -/

theorem mem_toList_source (d : Option LocDesc) (l : LocDesc)
    (h : l ∈ d.toList) : d = some l := by
  cases d with
  | none => simp at h
  | some a =>
    simp at h
    rw [h]

theorem locs_source_cases (env : Env) (desc : JobDesc) (gid : String)
    (dtr : List Event) (locs : List LocDesc) (l : LocDesc)
    (hdl : download env desc gid = (dtr, DownloadRes.ok locs)) (hl : l ∈ locs) :
    (∃ cfg loc, desc.carelink = some cfg ∧
       l = { source := "carelink", location := some loc, config := some cfg }) ∨
    (∃ cfg loc, desc.diasend = some cfg ∧
       l = { source := "diasend", location := some loc, config := some cfg }) ∨
    (∃ cfg loc, desc.tconnect = some cfg ∧
       l = { source := "tconnect", location := some loc, config := none }) ∨
    (∃ cfg loc, desc.dexcom = some cfg ∧
       l = { source := "dexcom", location := some loc, config := some cfg }) := by
  rcases download_ok_descriptors env desc gid dtr locs hdl with
    ⟨d1, d2, d3, d4, hlocs, hc1, hc2, hc3, hc4⟩
  subst hlocs
  simp only [List.mem_append] at hl
  rcases hl with ((h | h) | h) | h
  · have hd := mem_toList_source d1 l h
    rcases hc1 with ⟨_, rfl⟩ | ⟨cfg, loc, hcfg, hsome⟩
    · cases hd
    · rw [hsome] at hd
      injection hd with hd
      exact Or.inl ⟨cfg, loc, hcfg, hd.symm⟩
  · have hd := mem_toList_source d2 l h
    rcases hc2 with ⟨_, rfl⟩ | ⟨cfg, loc, hcfg, hsome⟩
    · cases hd
    · rw [hsome] at hd
      injection hd with hd
      exact Or.inr (Or.inl ⟨cfg, loc, hcfg, hd.symm⟩)
  · have hd := mem_toList_source d3 l h
    rcases hc3 with ⟨_, rfl⟩ | ⟨cfg, loc, hcfg, hsome⟩
    · cases hd
    · rw [hsome] at hd
      injection hd with hd
      exact Or.inr (Or.inr (Or.inl ⟨cfg, loc, hcfg, hd.symm⟩))
  · have hd := mem_toList_source d4 l h
    rcases hc4 with ⟨_, rfl⟩ | ⟨cfg, loc, hcfg, hsome⟩
    · cases hd
    · rw [hsome] at hd
      injection hd with hd
      exact Or.inr (Or.inr (Or.inr ⟨cfg, loc, hcfg, hd.symm⟩))

/-- C5 (amended): in any run that completes the download phase, the
descriptor list decomposes into at most one optional descriptor per source
key, present exactly when that key was configured (every configured fetch
succeeded in such a run); the descriptor carries the source's config for
carelink, diasend and dexcom, but the tconnect descriptor omits the config
field.  For an absent source key no fetch with that branch's filename is
invoked and no parse for that key ever occurs, in any run.  (The original
claim that every descriptor has shape source / location / config is refuted
at tconnect by the counterexample.) -/
theorem claim5_descriptor_per_source (env : Env) (dir : Option String)
    (desc : JobDesc) (gid : String) (db : DB)
    (hg : desc.groupId = some gid) :
    (∀ dtr locs, download env desc gid = (dtr, DownloadRes.ok locs) →
      ∃ d1 d2 d3 d4 : Option LocDesc,
        locs = d1.toList ++ d2.toList ++ d3.toList ++ d4.toList ∧
        ((desc.carelink = none ∧ d1 = none) ∨ (∃ cfg loc, desc.carelink = some cfg ∧
            d1 = some { source := "carelink", location := some loc, config := some cfg })) ∧
        ((desc.diasend = none ∧ d2 = none) ∨ (∃ cfg loc, desc.diasend = some cfg ∧
            d2 = some { source := "diasend", location := some loc, config := some cfg })) ∧
        ((desc.tconnect = none ∧ d3 = none) ∨ (∃ cfg loc, desc.tconnect = some cfg ∧
            d3 = some { source := "tconnect", location := some loc, config := none })) ∧
        ((desc.dexcom = none ∧ d4 = none) ∨ (∃ cfg loc, desc.dexcom = some cfg ∧
            d4 = some { source := "dexcom", location := some loc, config := some cfg }))) ∧
    (desc.carelink = none →
      (∀ ty, Event.fetchCall ty "carelink.csv" ∉ (runJob env dir desc db).trace) ∧
      Event.parseCall "carelink" ∉ (runJob env dir desc db).trace) ∧
    (desc.diasend = none →
      (∀ ty, Event.fetchCall ty "diasend.xls" ∉ (runJob env dir desc db).trace) ∧
      Event.parseCall "diasend" ∉ (runJob env dir desc db).trace) ∧
    (desc.tconnect = none →
      (∀ ty, Event.fetchCall ty "tconnect.xml" ∉ (runJob env dir desc db).trace) ∧
      Event.parseCall "tconnect" ∉ (runJob env dir desc db).trace) ∧
    (desc.dexcom = none →
      (∀ ty, Event.fetchCall ty "dexcom.csv" ∉ (runJob env dir desc db).trace) ∧
      Event.parseCall "dexcom" ∉ (runJob env dir desc db).trace) := by
  have hfetch : ∀ (f : String), (∀ b ∈ branches env desc gid,
        ∀ ty, Event.fetchCall ty f ∉ b.1) →
      ∀ ty, Event.fetchCall ty f ∉ (runJob env dir desc db).trace := by
    intro f hbr ty hmem
    have h2 := run_fetch_origin env dir desc gid db ty f hg hmem
    rw [download_trace_eq] at h2
    rcases collectBranches_trace_mem _ _ h2 with ⟨b, hb, heb⟩
    exact hbr b hb ty heb
  have hparseAbs : ∀ (k : String),
      (∀ dtr locs l, download env desc gid = (dtr, DownloadRes.ok locs) →
         l ∈ locs → l.source ≠ k) →
      Event.parseCall k ∉ (runJob env dir desc db).trace := by
    intro k hno hmem
    rcases run_parse_origin env dir desc gid db k hg hmem with
      ⟨dtr, locs, hdl, l, hl, hsrc⟩
    exact hno dtr locs l hdl hl hsrc
  refine ⟨fun dtr locs h => download_ok_descriptors env desc gid dtr locs h,
    ?_, ?_, ?_, ?_⟩
  · intro hnone
    constructor
    · refine hfetch "carelink.csv" ?_
      intro b hb ty heb
      simp [branches] at hb
      rcases hb with rfl | rfl | rfl | rfl
      · exact absurd hnone (stdBranch_fetch_filename _ _ _ _ _ _ _ _ heb).2
      · exact absurd (stdBranch_fetch_filename _ _ _ _ _ _ _ _ heb).1 (by decide)
      · exact absurd (stdBranch_fetch_filename _ _ _ _ _ _ _ _ heb).1 (by decide)
      · exact absurd (dexcomBranch_fetch_filename _ _ _ _ _ heb).1 (by decide)
    · refine hparseAbs "carelink" ?_
      intro dtr locs l hdl hl hsrc
      rcases locs_source_cases env desc gid dtr locs l hdl hl with
        ⟨cfg, loc, hcfg, rfl⟩ | ⟨cfg, loc, hcfg, rfl⟩ |
        ⟨cfg, loc, hcfg, rfl⟩ | ⟨cfg, loc, hcfg, rfl⟩
      · rw [hnone] at hcfg
        cases hcfg
      · exact absurd hsrc (by simp)
      · exact absurd hsrc (by simp)
      · exact absurd hsrc (by simp)
  · intro hnone
    constructor
    · refine hfetch "diasend.xls" ?_
      intro b hb ty heb
      simp [branches] at hb
      rcases hb with rfl | rfl | rfl | rfl
      · exact absurd (stdBranch_fetch_filename _ _ _ _ _ _ _ _ heb).1 (by decide)
      · exact absurd hnone (stdBranch_fetch_filename _ _ _ _ _ _ _ _ heb).2
      · exact absurd (stdBranch_fetch_filename _ _ _ _ _ _ _ _ heb).1 (by decide)
      · exact absurd (dexcomBranch_fetch_filename _ _ _ _ _ heb).1 (by decide)
    · refine hparseAbs "diasend" ?_
      intro dtr locs l hdl hl hsrc
      rcases locs_source_cases env desc gid dtr locs l hdl hl with
        ⟨cfg, loc, hcfg, rfl⟩ | ⟨cfg, loc, hcfg, rfl⟩ |
        ⟨cfg, loc, hcfg, rfl⟩ | ⟨cfg, loc, hcfg, rfl⟩
      · exact absurd hsrc (by simp)
      · rw [hnone] at hcfg
        cases hcfg
      · exact absurd hsrc (by simp)
      · exact absurd hsrc (by simp)
  · intro hnone
    constructor
    · refine hfetch "tconnect.xml" ?_
      intro b hb ty heb
      simp [branches] at hb
      rcases hb with rfl | rfl | rfl | rfl
      · exact absurd (stdBranch_fetch_filename _ _ _ _ _ _ _ _ heb).1 (by decide)
      · exact absurd (stdBranch_fetch_filename _ _ _ _ _ _ _ _ heb).1 (by decide)
      · exact absurd hnone (stdBranch_fetch_filename _ _ _ _ _ _ _ _ heb).2
      · exact absurd (dexcomBranch_fetch_filename _ _ _ _ _ heb).1 (by decide)
    · refine hparseAbs "tconnect" ?_
      intro dtr locs l hdl hl hsrc
      rcases locs_source_cases env desc gid dtr locs l hdl hl with
        ⟨cfg, loc, hcfg, rfl⟩ | ⟨cfg, loc, hcfg, rfl⟩ |
        ⟨cfg, loc, hcfg, rfl⟩ | ⟨cfg, loc, hcfg, rfl⟩
      · exact absurd hsrc (by simp)
      · exact absurd hsrc (by simp)
      · rw [hnone] at hcfg
        cases hcfg
      · exact absurd hsrc (by simp)
  · intro hnone
    constructor
    · refine hfetch "dexcom.csv" ?_
      intro b hb ty heb
      simp [branches] at hb
      rcases hb with rfl | rfl | rfl | rfl
      · exact absurd (stdBranch_fetch_filename _ _ _ _ _ _ _ _ heb).1 (by decide)
      · exact absurd (stdBranch_fetch_filename _ _ _ _ _ _ _ _ heb).1 (by decide)
      · exact absurd (stdBranch_fetch_filename _ _ _ _ _ _ _ _ heb).1 (by decide)
      · exact absurd hnone (dexcomBranch_fetch_filename _ _ _ _ _ heb).2
    · refine hparseAbs "dexcom" ?_
      intro dtr locs l hdl hl hsrc
      rcases locs_source_cases env desc gid dtr locs l hdl hl with
        ⟨cfg, loc, hcfg, rfl⟩ | ⟨cfg, loc, hcfg, rfl⟩ |
        ⟨cfg, loc, hcfg, rfl⟩ | ⟨cfg, loc, hcfg, rfl⟩
      · exact absurd hsrc (by simp)
      · exact absurd hsrc (by simp)
      · exact absurd hsrc (by simp)
      · rw [hnone] at hcfg
        cases hcfg

/-- C5 counterexample: with tconnect configured and everything succeeding,
the produced Location Descriptor does not carry the source's config: the
tconnect branch omits the config field, so the descriptor's config is none
while the Job Description holds a config for tconnect. -/
theorem claim5_cex_tconnect_descriptor_lacks_config :
    (download envAllOk descTconnectOnly "g4").2 =
      DownloadRes.ok [{ source := "tconnect", location := some "loc1",
                        config := none }] ∧
    descTconnectOnly.tconnect = some cfgTconnect ∧
    ({ source := "tconnect", location := some "loc1",
       config := none } : LocDesc).config ≠ descTconnectOnly.tconnect :=
  ⟨rfl, rfl, by decide⟩

/-- C5 witness: in the concrete carelink-only run, the absent diasend key
triggers no fetch on its branch filename and no parse for its key. -/
theorem claim5_witness :
    descCarelinkOnly.groupId = some "g1" ∧
    (descCarelinkOnly.diasend = none →
      (∀ ty, Event.fetchCall ty "diasend.xls" ∉
        (runJob envAllOk none descCarelinkOnly []).trace) ∧
      Event.parseCall "diasend" ∉
        (runJob envAllOk none descCarelinkOnly []).trace) :=
  ⟨rfl, (claim5_descriptor_per_source envAllOk none descCarelinkOnly
      "g1" [] rfl).2.2.1⟩

/-- Like `envAllOk` but the staging-file unlink fails. -/
def envUnlinkFail : Env := { envAllOk with unlinkOk := false }

/-- C7 (amended): for a configured dexcom source with a registered adapter,
a fetcher failure ends the run through `fail` before any unlink, so the
staging file is not deleted on that path; when the fetch callback fires
(blob save succeeded or failed), the staging file is unlinked, an unlink
failure is only logged, and the branch outcome is independent of the
unlink result (never escalated).  (The original "deleted regardless of
fetch outcome" is refuted by the counterexample.) -/
theorem claim7_dexcom_unlink_on_callback_only (env : Env) (gid : String)
    (cfg : SourceConfig) (hreg : cfg.type ∈ env.registered) :
    (env.fetchOk cfg.type = false →
       dexcomBranch env gid (some cfg) =
         ([Event.fetchCall cfg.type "dexcom.csv"],
          BranchRes.terminal (Terminal.failExit failFetchReason))) ∧
    (env.fetchOk cfg.type = true →
       Event.unlinkCall cfg.file ∈ (dexcomBranch env gid (some cfg)).1 ∧
       (env.unlinkOk = false →
          Event.logWarn "error deleting file" ∈ (dexcomBranch env gid (some cfg)).1) ∧
       (∀ b : Bool, (dexcomBranch { env with unlinkOk := b } gid (some cfg)).2 =
          (dexcomBranch env gid (some cfg)).2)) := by
  constructor
  · intro hf
    simp [dexcomBranch, fetchOne, hreg, hf]
  · intro hf
    cases hs : env.saveResult gid "dexcom.csv" with
    | ok loc =>
      refine ⟨?_, ?_, ?_⟩
      · simp [dexcomBranch, fetchOne, hreg, hf, hs]
      · intro hu
        simp [dexcomBranch, fetchOne, hreg, hf, hs, hu]
      · intro b
        cases b <;> simp [dexcomBranch, fetchOne, hreg, hf, hs]
    | error m =>
      refine ⟨?_, ?_, ?_⟩
      · simp [dexcomBranch, fetchOne, hreg, hf, hs]
      · intro hu
        simp [dexcomBranch, fetchOne, hreg, hf, hs, hu]
      · intro b
        cases b <;> simp [dexcomBranch, fetchOne, hreg, hf, hs]

/-- C7 counterexample: with dexcom configured and the dexcom Fetcher
failing, the run exits 255 via `fail` and the staging-file unlink is never
attempted (the trace holds no unlink event at all). -/
theorem claim7_cex_fetcher_failure_skips_unlink :
    descDexcomOnly.dexcom = some cfgDexcom ∧
    (runJob envFetchFail (some "art") descDexcomOnly []).outcome =
      Outcome.exited 255 ∧
    Event.unlinkCall cfgDexcom.file ∉
      (runJob envFetchFail (some "art") descDexcomOnly []).trace ∧
    (runJob envFetchFail (some "art") descDexcomOnly []).trace =
      [Event.fetchCall "dexcom" "dexcom.csv", Event.dbClose,
       Event.logWarn failFetchReason, Event.artifact failFetchReason] :=
  ⟨rfl, rfl, by decide, rfl⟩

/-- C7 witness: with the fetch callback reached and the unlink failing, the
unlink is attempted, its failure is logged, and the branch outcome is the
same as with a successful unlink. -/
theorem claim7_witness :
    cfgDexcom.type ∈ envUnlinkFail.registered ∧
    (envUnlinkFail.fetchOk cfgDexcom.type = true →
       Event.unlinkCall cfgDexcom.file ∈
         (dexcomBranch envUnlinkFail "g5" (some cfgDexcom)).1 ∧
       (envUnlinkFail.unlinkOk = false →
          Event.logWarn "error deleting file" ∈
            (dexcomBranch envUnlinkFail "g5" (some cfgDexcom)).1) ∧
       (∀ b : Bool,
          (dexcomBranch { envUnlinkFail with unlinkOk := b } "g5"
              (some cfgDexcom)).2 =
          (dexcomBranch envUnlinkFail "g5" (some cfgDexcom)).2)) :=
  ⟨by decide, (claim7_dexcom_unlink_on_callback_only envUnlinkFail "g5"
      cfgDexcom (by decide)).2⟩
